import Mathlib

/-!
Shallow embedding of the pyem map-modification utility (`map.py`) and proofs
about its pose-normalization, transform-composition, resampling and
mask-heuristic behaviour.

Conventions of the embedding:
* machine floats become an abstract linear ordered field `K` with a floor
  structure (instantiated at `ℚ` for concrete evaluation and at `ℝ` where
  Euclidean norms are needed);
* the external interpolation primitives of `scipy.ndimage`
  (`map_coordinates`, `affine_transform`, `shift`) are black boxes per the
  design document; their coordinate bookkeeping is embedded exactly and the
  pointwise spline evaluator is an explicit parameter `interp`.  For runs
  with spline order 0 the evaluator is the documented nearest-neighbour
  lookup with constant-zero boundary, given concretely below;
* fallible numpy operations (the `reshape` in `resample_volume`, the origin
  validation in `main`) return `Except`.
-/

set_option linter.unusedSectionVars false

abbrev Vec3 (K : Type) := Fin 3 → K

abbrev Mat3 (K : Type) := Fin 3 → Fin 3 → K

/-- A volume: a dense 3-D scalar array of shape `(nx, ny, nz)`.  `data` is
total on `ℕ³`; only indices below the shape are ever observed. -/
structure Vol (K : Type) where
  nx : ℕ
  ny : ℕ
  nz : ℕ
  data : ℕ → ℕ → ℕ → K

/-- The shape vector `(nx, ny, nz)` of a volume, as read from the header
fields `nx, ny, nz` in `main` (`box = np.array([hdr[a] for a in ["nx","ny","nz"]])`). -/
def Vol.shape {K : Type} (v : Vol K) : Fin 3 → ℕ := ![v.nx, v.ny, v.nz]

/-- The list of all in-range voxel values of a volume, in C (row-major) order. -/
def volValues {K : Type} (v : Vol K) : List K :=
  (List.range v.nx).flatMap fun i =>
    (List.range v.ny).flatMap fun j =>
      (List.range v.nz).map fun k => v.data i j k

/-- A rotation argument of `resample_volume`: a numpy array of shape 3×3 or
3×4.  `entry` is the `r[:3,:3]` block, `hasT` records whether
`r.shape[1] == 4`, and `tcol` is the fourth column `r[:,3]` when present. -/
structure RMat (K : Type) where
  entry : Mat3 K
  hasT : Bool
  tcol : Vec3 K

/-- The 3×3 identity, `np.eye` restricted to the rotation block. -/
def id3 {K : Type} [Zero K] [One K] : Mat3 K := fun i j => if i = j then 1 else 0

/-- Run-time errors of the embedded program: the origin-validation failure
(`assert np.all(args.origin < box)`, reported via `return 1`) and the
`ValueError` numpy raises when `resample_volume` reshapes a coordinate grid
whose size does not match the volume. -/
inductive Err where
  | originOutOfBox
  | reshapeMismatch
deriving DecidableEq

/-- Advisory warnings `main` logs at warning level. -/
inductive Warn where
  | targetAfterMatrix
  | eulerAfterOthers
  | translateLast
  | maskLike
deriving DecidableEq

/-- A black-box pointwise spline evaluator standing for the scipy
interpolation primitives: given the source volume, the spline order and a
source coordinate, produce the interpolated value.  The design document
treats the interpolation primitives as external collaborators with a fixed
deterministic boundary policy. -/
abbrev Interp (K : Type) := Vol K → ℕ → Vec3 K → K

section Embedding

variable {K : Type} [LinearOrderedField K] [FloorRing K]

/-- Modelled from the spec: the spline evaluator at order 0 is nearest
neighbour (§4.2, §6: "0 = nearest neighbor"), with the constant-extension
boundary policy fixed to the scipy default of constant 0.  The order
argument of the black box is ignored here; this evaluator is only ever used
for runs whose spline order is 0. -/
def nearest0 : Interp K := fun vol _order c =>
  let i : ℤ := round (c 0)
  let j : ℤ := round (c 1)
  let k : ℤ := round (c 2)
  if 0 ≤ i ∧ i < vol.nx ∧ 0 ≤ j ∧ j < vol.ny ∧ 0 ≤ k ∧ k < vol.nz then
    vol.data i.toNat j.toNat k.toNat
  else 0

/-- Length of `np.arange(-o, o)` (unit step): `⌈2o⌉`, clamped at 0. -/
def gridLen (o : K) : ℕ := (Int.ceil (2 * o)).toNat

/-- The data function of the volume produced by the non-trivial branch of
`resample_volume` (map.py lines 148-168).  The output voxel at index
`(p, q, s)` samples the source at `th · rh · g + ori` where `g` is the entry
of the flattened `np.meshgrid(*[np.arange(-o, o) for o in ori], indexing="xy")`
grid that lands at `(p, q, s)` after `reshape(vol.shape)`.

With `indexing="xy"` the meshgrid outputs have shape `(len a1, len a0, len a2)`
and `x[i,j,k] = a0[j]`, `y[i,j,k] = a1[i]`, `z[i,j,k] = a2[k]`, so the flat
position `f = i·(len a0·len a2) + j·len a2 + k` holds the grid point
`(a0[j], a1[i], a2[k])`; re-reading flat position
`f = p·(ny·nz) + q·nz + s` recovers that point. -/
def resampleData (interp : Interp K) (vol : Vol K) (r : Option (RMat K))
    (t : Option (Vec3 K)) (o : Vec3 K) (order : ℕ) : ℕ → ℕ → ℕ → K :=
  -- rh[:3,:3] = r[:3,:3].T (identity when r is absent)
  let A : Mat3 K := match r with
    | some m => m.entry
    | none => id3
  -- map.py line 156: when `t is None and r.shape[1] == 4` the code derives
  -- `t = np.squeeze(r[:,3]) - ori` but never writes it into `th`; `th` keeps
  -- its identity translation in that branch, so the derived value is dead:
  let _tDerived : Option (Vec3 K) := match t, r with
    | none, some m => if m.hasT then some (fun d => m.tcol d - o d) else none
    | _, _ => t
  -- th[:3,3] = t - ori, set only in the `elif t is not None` branch
  let tt : Vec3 K := match t with
    | some tv => fun d => tv d - o d
    | none => fun _ => 0
  let len : Fin 3 → ℕ := fun m => gridLen (o m)
  fun p q s =>
    let f := p * (vol.ny * vol.nz) + q * vol.nz + s
    let i1 := f / (len 0 * len 2)
    let j0 := (f % (len 0 * len 2)) / len 2
    let k2 := f % len 2
    let g : Vec3 K := ![(j0 : K) - o 0, (i1 : K) - o 1, (k2 : K) - o 2]
    -- source coordinate = (th · rh · g)[:3] + ori, i.e. Aᵀ·g + (t - o) + o
    interp vol order fun d => A 0 d * g 0 + A 1 d * g 1 + A 2 d * g 2 + tt d + o d

/-- `resample_volume(vol, r, t, ori, order)` from map.py lines 144-168.
Returns `vol.copy()` when both `r` and `t` are absent; otherwise defaults
the origin to `np.array(vol.shape) / 2` (python-2 integer division), builds
the coordinate grid and samples through the composed homogeneous transform.
The `reshape(vol.shape)` on line 165 raises unless the grid has exactly as
many points as the volume; that failure is the `reshapeMismatch` error. -/
def resample_volume (interp : Interp K) (vol : Vol K) (r : Option (RMat K))
    (t : Option (Vec3 K)) (ori : Option (Vec3 K)) (order : ℕ) :
    Except Err (Vol K) :=
  match r, t with
  | none, none => Except.ok vol
  | _, _ =>
    let o : Vec3 K := match ori with
      | some ov => ov
      | none => fun m => ((vol.shape m / 2 : ℕ) : K)
    if gridLen (o 0) * gridLen (o 1) * gridLen (o 2) = vol.nx * vol.ny * vol.nz then
      Except.ok ⟨vol.nx, vol.ny, vol.nz, resampleData interp vol r t o order⟩
    else
      Except.error Err.reshapeMismatch

/-- Modelled from the spec: the general-purpose affine-transform primitive
(`scipy.ndimage.affine_transform`, an external collaborator per §6): the
output voxel at index `i` samples the input at `matrix · i + offset`, at the
requested spline order, preserving the shape. -/
def affineT (interp : Interp K) (vol : Vol K) (M : Mat3 K) (offset : Vec3 K)
    (order : ℕ) : Vol K :=
  ⟨vol.nx, vol.ny, vol.nz, fun p q s =>
    interp vol order fun d =>
      M d 0 * (p : K) + M d 1 * (q : K) + M d 2 * (s : K) + offset d⟩

/-- Modelled from the spec: the pure-shift primitive (`scipy.ndimage.shift`,
an external collaborator per §6): the output voxel at index `i` samples the
input at `i - shift`. -/
def shiftVol (interp : Interp K) (vol : Vol K) (sh : Vec3 K) (order : ℕ) : Vol K :=
  ⟨vol.nx, vol.ny, vol.nz, fun p q s =>
    interp vol order fun d => ![(p : K), (q : K), (s : K)] d - sh d⟩

/-- The Euler-angle resampling path of `main` (map.py lines 115-118), for an
already-computed rotation matrix `r`: it calls the affine-transform
primitive directly with the transposed rotation and the origin-offset
correction `offset = (origin - 0.5) - r.T · (origin - 0.5)`. -/
def applyEulerRot (interp : Interp K) (r : Mat3 K) (o : Vec3 K) (order : ℕ)
    (vol : Vol K) : Vol K :=
  let ofs0 : Vec3 K := fun d => o d - 1 / 2
  let ofs : Vec3 K := fun d =>
    ofs0 d - (r 0 d * ofs0 0 + r 1 d * ofs0 1 + r 2 d * ofs0 2)
  affineT interp vol (fun i j => r j i) ofs order

/-- The parsed command-line arguments consumed by `main`, with file reads
already performed (`reference` holds the loaded reference volume) and
numeric lists already parsed; `xlen` is the header field used for the
pixel-size fallback.  `origin`, `target` and `translate` are in physical
units, exactly as typed by the user. -/
structure Args (K : Type) where
  normalize : Bool
  reference : Option (Vol K)
  apix : Option K
  xlen : K
  origin : Option (Vec3 K)
  target : Option (Vec3 K)
  euler : Option (Vec3 K)
  translate : Option (Vec3 K)
  matrix : Option (RMat K)
  order : ℕ

/-- Pixel-size resolution (map.py lines 63-65): the supplied `--apix`, or
`hdr["xlen"] / hdr["nx"]` when absent. -/
def apixRes (args : Args K) (vol : Vol K) : K :=
  match args.apix with
  | some p => p
  | none => args.xlen / (vol.nx : K)

/-- The arguments with all pose mechanisms other than the explicit matrix
cleared. -/
def onlyMatrix (a : Args K) : Args K := { a with target := none, euler := none, translate := none }

/-- The arguments with all pose mechanisms other than the target cleared. -/
def onlyTarget (a : Args K) : Args K := { a with matrix := none, euler := none, translate := none }

/-- The arguments with all pose mechanisms other than the Euler angles
cleared. -/
def onlyEuler (a : Args K) : Args K := { a with matrix := none, target := none, translate := none }

/-- The arguments with all pose mechanisms other than the translation
cleared. -/
def onlyTranslate (a : Args K) : Args K := { a with matrix := none, target := none, euler := none }

/-- The arguments with all four pose mechanisms cleared. -/
def stripPose (a : Args K) : Args K := { a with matrix := none, target := none, euler := none, translate := none }

variable [DecidableRel ((· < ·) : K → K → Prop)]

/-- Origin resolution and validation (map.py lines 74-83): a supplied origin
is divided by the pixel size and must satisfy `np.all(origin < box)`
(upper bound only — no lower bound is checked); an absent origin defaults to
`box / 2` under python-2 integer division. -/
def resolveOrigin (origin : Option (Vec3 K)) (apix : K) (box : Fin 3 → ℕ) :
    Except Err (Vec3 K) :=
  match origin with
  | some ov =>
    if ∀ i : Fin 3, ov i / apix < (box i : K) then
      Except.ok fun i => ov i / apix
    else
      Except.error Err.originOutOfBox
  | none => Except.ok fun i => ((box i / 2 : ℕ) : K)

/-- The explicit-matrix step (map.py lines 88-94): when `--matrix` is given,
resample through it with `t=None` and `ori=None`. -/
def stepMatrix (interp : Interp K) (m : Option (RMat K)) (order : ℕ)
    (vol : Vol K) : Except Err (Vol K) :=
  match m with
  | none => Except.ok vol
  | some mm => resample_volume interp vol (some mm) none none order

/-- The standard-pose-target step (map.py lines 97-107): the physical target
is divided by the pixel size, the resolved origin is subtracted, the
rotation is obtained from the vector-to-rotation conversion and the volume
is resampled with both that rotation and the offset vector as translation,
about the resolved origin. -/
def stepTarget (interp : Interp K) (v2r : Vec3 K → Mat3 K) (apix : K)
    (o : Vec3 K) (tg : Option (Vec3 K)) (order : ℕ) (vol : Vol K) :
    Except Err (Vol K) :=
  match tg with
  | none => Except.ok vol
  | some v =>
    let w : Vec3 K := fun i => v i / apix - o i
    resample_volume interp vol (some ⟨v2r w, false, fun _ => 0⟩) (some w)
      (some o) order

/-- The Euler-angle step (map.py lines 109-118).  The abstract conversion
`e2r` stands for `euler2rot` composed with the degrees-to-radians scaling of
line 111 (the scaling involves `π` and the conversion lives in `pyem.util`,
outside the embedded source; no claim depends on its values). -/
def stepEuler (interp : Interp K) (e2r : K → K → K → Mat3 K) (o : Vec3 K)
    (eu : Option (Vec3 K)) (order : ℕ) (vol : Vol K) : Vol K :=
  match eu with
  | none => vol
  | some e => applyEulerRot interp (e2r (e 0) (e 1) (e 2)) o order vol

/-- The pure-translation step (map.py lines 120-127): the physical
translation is divided by the pixel size, the resolved origin is subtracted
and the volume is shifted by the negation of the result. -/
def stepTranslate (interp : Interp K) (apix : K) (o : Vec3 K)
    (tr : Option (Vec3 K)) (order : ℕ) (vol : Vol K) : Vol K :=
  match tr with
  | none => vol
  | some tv =>
    shiftVol interp vol (fun i => -(tv i / apix - o i)) order

/-- The computational core of `main` (map.py lines 47-133), with logging
split off into `mainWarnings`: optional z-score normalization of the input
(line 51-61, computed before any transform; `volMean` below is `np.mean` and
the abstract `std` is `np.std`), pixel-size resolution, origin resolution
and validation (aborting with exit status 1 on failure), then the four pose
steps in source order, each replacing the working volume; the written
volume is `final`, which is the normalized volume when `--normalize` was
given and otherwise the final working volume. -/
def volMean (vol : Vol K) : K :=
  (volValues vol).sum / ((vol.nx * vol.ny * vol.nz : ℕ) : K)

def mainCore (interp : Interp K) (e2r : K → K → K → Mat3 K)
    (v2r : Vec3 K → Mat3 K) (std : Vol K → K) (args : Args K) (vol : Vol K) :
    Except Err (Vol K) :=
  let finalN : Option (Vol K) :=
    if args.normalize then
      let sigma : K := match args.reference with
        | some rv => std rv
        | none => std vol
      let mu := volMean vol
      some ⟨vol.nx, vol.ny, vol.nz, fun i j k => (vol.data i j k - mu) / sigma⟩
    else none
  let apix := apixRes args vol
  match resolveOrigin args.origin apix vol.shape with
  | Except.error e => Except.error e
  | Except.ok o =>
    (stepMatrix interp args.matrix args.order vol).bind fun d1 =>
      (stepTarget interp v2r apix o args.target args.order d1).bind fun d2 =>
        let d3 := stepEuler interp e2r o args.euler args.order d2
        let d4 := stepTranslate interp apix o args.translate args.order d3
        Except.ok (finalN.getD d4)

end Embedding

section Mask

variable {K : Type} [DecidableEq K]

/-- The values sampled by `ismask` (map.py lines 136-141):
`vol[vol.shape[2]/2 :: vol.shape[2]]`, i.e. every `nz`-th section along the
first axis starting at section `nz/2` (python-2 integer division), all of
whose voxels are inspected. -/
def sampledValues (v : Vol K) : List K :=
  ((List.range v.nx).filter fun i =>
      decide (v.nz / 2 ≤ i) && decide ((i - v.nz / 2) % v.nz = 0)).flatMap
    fun i => (List.range v.ny).flatMap fun j =>
      (List.range v.nz).map fun k => v.data i j k

/-- `ismask` (map.py lines 136-141): the sampled sub-array has fewer than
100 distinct values. -/
def ismask (v : Vol K) : Bool := (sampledValues v).dedup.length < 100

end Mask

section MainRun

variable {K : Type} [LinearOrderedField K] [FloorRing K] [DecidableEq K]
variable [DecidableRel ((· < ·) : K → K → Prop)]

/-- The warning-level log lines of `main`: the ordering advisories of lines
67-72 and, after a successful origin resolution, the mask advisory of lines
85-86 (`ismask(data) and args.spline_order != 0`). -/
def mainWarnings (args : Args K) (vol : Vol K) : List Warn :=
  (if args.target.isSome && args.matrix.isSome then [Warn.targetAfterMatrix] else [])
    ++ (if args.euler.isSome && (args.target.isSome || args.matrix.isSome) then
          [Warn.eulerAfterOthers] else [])
    ++ (if args.translate.isSome &&
          (args.euler.isSome || args.target.isSome || args.matrix.isSome) then
          [Warn.translateLast] else [])
    ++ (match resolveOrigin args.origin (apixRes args vol) vol.shape with
        | Except.error _ => []
        | Except.ok _ =>
          if ismask vol && !(args.order == 0) then [Warn.maskLike] else [])

/-- `main` in full: the emitted warnings together with the computed result.
The mask heuristic contributes only to the warning component. -/
def mainRun (interp : Interp K) (e2r : K → K → K → Mat3 K)
    (v2r : Vec3 K → Mat3 K) (std : Vol K → K) (args : Args K) (vol : Vol K) :
    List Warn × Except Err (Vol K) :=
  (mainWarnings args vol, mainCore interp e2r v2r std args vol)

end MainRun

section TargetModel

/-- Matrix-vector product for the 3×3 rotation blocks. -/
def mulVec3 {K : Type} [NonUnitalNonAssocSemiring K] (A : Mat3 K) (v : Vec3 K) :
    Vec3 K :=
  fun i => A i 0 * v 0 + A i 1 * v 1 + A i 2 * v 2

/-- Euclidean norm of a 3-vector, `np.linalg.norm`. -/
noncomputable def enorm (v : Vec3 ℝ) : ℝ := Real.sqrt (v 0 ^ 2 + v 1 ^ 2 + v 2 ^ 2)

/-- The reference view axis (the z axis, per the Relion convention named in
the design document). -/
def ez : Vec3 ℝ := ![0, 0, 1]

/-- Modelled from the spec: `vec2rot` lives in `pyem.util`, outside the
embedded source files.  Per §4.1/§6 it is a pure vector-to-rotation
conversion whose result maps the reference view axis onto the normalized
direction of its argument; only that image column is constrained by the
design document, so only the third column is modelled meaningfully here and
the remaining entries are a fixed placeholder completion that no claim
consults. -/
noncomputable def vec2rot (v : Vec3 ℝ) : Mat3 ℝ := fun i j =>
  if j = 2 then v i / enorm v else if i = j then 1 else 0

end TargetModel

section ConcreteInstances

/-- A 2×2×2 test volume whose voxel values are their row-major linear index. -/
def cvol2 : Vol ℚ := ⟨2, 2, 2, fun i j k => (((i * 2 + j) * 2 + k : ℕ) : ℚ)⟩

/-- A 4×4×4 test volume whose voxel values are their row-major linear index. -/
def cvol3 : Vol ℚ := ⟨4, 4, 4, fun i j k => (((i * 4 + j) * 4 + k : ℕ) : ℚ)⟩

/-- The identity rotation as a 3×3 `resample_volume` argument. -/
def mat33id : RMat ℚ := ⟨id3, false, fun _ => 0⟩

/-- The identity rotation in 3×4 form with embedded translation column
`(2, 1, 1)`. -/
def mat34c : RMat ℚ := ⟨id3, true, ![2, 1, 1]⟩

/-- A 2×250×100 volume whose 50000 voxel values are all distinct (the
row-major linear index).  Its `nx = 2` is smaller than `nz/2 = 50`, so the
stride `vol[nz/2::nz]` sampled by `ismask` is empty. -/
def cvol7 : Vol ℚ := ⟨2, 250, 100, fun i j k => (((i * 250 + j) * 100 + k : ℕ) : ℚ)⟩

/-- A 20×20×20 volume taking exactly the two values 0 and 1. -/
def cvolMask2 : Vol ℚ := ⟨20, 20, 20, fun i _ _ => if i = 0 then 0 else 1⟩

/-- A 1×100×1 volume whose sampled stride carries 100 distinct values. -/
def cvolStride : Vol ℚ := ⟨1, 100, 1, fun _ j _ => (j : ℚ)⟩

/-- A trivial Euler-to-rotation conversion for concrete runs that do not
exercise the Euler step's rotation values. -/
def e2rTriv : ℚ → ℚ → ℚ → Mat3 ℚ := fun _ _ _ => id3

/-- A trivial vector-to-rotation conversion for concrete runs that do not
exercise the target step's rotation values. -/
def v2rTriv : Vec3 ℚ → Mat3 ℚ := fun _ => id3

/-- A trivial standard deviation for concrete runs. -/
def std1 : Vol ℚ → ℚ := fun _ => 1

/-- Baseline arguments: no options requested, pixel size 1. -/
def argsBase : Args ℚ :=
  ⟨false, none, some 1, 4, none, none, none, none, none, 0⟩

/-- Arguments with an origin resolving exactly onto the box boundary. -/
def argsC5bad : Args ℚ := { argsBase with origin := some ![4, 0, 0] }

/-- Arguments with an origin strictly below every box dimension, with a
negative first coordinate. -/
def argsC5good : Args ℚ := { argsBase with origin := some ![-1, 1, 1] }

/-- Arguments supplying both a user origin and an explicit matrix. -/
def argsC9 : Args ℚ :=
  { argsBase with origin := some ![1, 1, 1], matrix := some mat33id }

/-- Arguments supplying both a user origin and an explicit matrix, sized for
the 2×2×2 volume. -/
def argsC9w : Args ℚ :=
  { argsBase with origin := some ![1, 1, 1], matrix := some mat33id, xlen := 2 }

/-- Arguments requesting normalization together with a pose transform. -/
def argsC10 : Args ℚ :=
  { argsBase with normalize := true, matrix := some mat33id, xlen := 2 }

/-- The z-scored 2×2×2 volume (with the trivial standard deviation). -/
def nv10 : Vol ℚ :=
  ⟨2, 2, 2, fun i j k => (cvol2.data i j k - volMean cvol2) / std1 cvol2⟩

/-- Arguments requesting all four pose mechanisms at once. -/
def argsC1 : Args ℚ :=
  { argsBase with
    matrix := some mat33id
    target := some ![1, 1, 1]
    euler := some ![0, 0, 0]
    translate := some ![1, 1, 1]
    origin := some ![1, 1, 1]
    xlen := 2 }

/-- Arguments with a nonzero spline order and no other options, for the
mask-advisory witness. -/
def argsC7 : Args ℚ := { argsBase with order := 3 }

end ConcreteInstances

section ShapeLemmas

variable {K : Type} [LinearOrderedField K] [FloorRing K]

/-- Two volumes with equal dimension fields have equal shape vectors. -/
theorem Vol.shape_congr {v w : Vol K} (h1 : v.nx = w.nx) (h2 : v.ny = w.ny)
    (h3 : v.nz = w.nz) : v.shape = w.shape := by
  unfold Vol.shape
  rw [h1, h2, h3]

/-- A successful `resample_volume` call returns a volume with the dimensions
of its input. -/
theorem resample_ok_shape (interp : Interp K) (vol : Vol K)
    (r : Option (RMat K)) (t : Option (Vec3 K)) (ori : Option (Vec3 K))
    (order : ℕ) (w : Vol K)
    (h : resample_volume interp vol r t ori order = Except.ok w) :
    w.nx = vol.nx ∧ w.ny = vol.ny ∧ w.nz = vol.nz := by
  rcases r with _ | rm <;> rcases t with _ | tv <;>
    simp only [resample_volume] at h
  · injection h with h'
    subst h'
    exact ⟨rfl, rfl, rfl⟩
  all_goals
    split at h
    · injection h with h'
      subst h'
      exact ⟨rfl, rfl, rfl⟩
    · cases h

/-- The matrix step preserves the dimensions of its input on success. -/
theorem stepMatrix_ok_shape (interp : Interp K) (m : Option (RMat K))
    (order : ℕ) (vol w : Vol K)
    (h : stepMatrix interp m order vol = Except.ok w) :
    w.nx = vol.nx ∧ w.ny = vol.ny ∧ w.nz = vol.nz := by
  rcases m with _ | mm
  · injection h with h'
    subst h'
    exact ⟨rfl, rfl, rfl⟩
  · exact resample_ok_shape interp vol (some mm) none none order w h

/-- The target step preserves the dimensions of its input on success. -/
theorem stepTarget_ok_shape (interp : Interp K) (v2r : Vec3 K → Mat3 K)
    (apix : K) (o : Vec3 K) (tg : Option (Vec3 K)) (order : ℕ) (vol w : Vol K)
    (h : stepTarget interp v2r apix o tg order vol = Except.ok w) :
    w.nx = vol.nx ∧ w.ny = vol.ny ∧ w.nz = vol.nz := by
  rcases tg with _ | v
  · injection h with h'
    subst h'
    exact ⟨rfl, rfl, rfl⟩
  · exact resample_ok_shape interp vol
      (some ⟨v2r (fun i => v i / apix - o i), false, fun _ => 0⟩)
      (some fun i => v i / apix - o i) (some o) order w h

/-- The Euler step preserves the dimensions of its input. -/
theorem stepEuler_shape (interp : Interp K) (e2r : K → K → K → Mat3 K)
    (o : Vec3 K) (eu : Option (Vec3 K)) (order : ℕ) (vol : Vol K) :
    (stepEuler interp e2r o eu order vol).nx = vol.nx
      ∧ (stepEuler interp e2r o eu order vol).ny = vol.ny
      ∧ (stepEuler interp e2r o eu order vol).nz = vol.nz := by
  rcases eu with _ | e <;> exact ⟨rfl, rfl, rfl⟩

/-- The translation step preserves the dimensions of its input. -/
theorem stepTranslate_shape (interp : Interp K) (apix : K) (o : Vec3 K)
    (tr : Option (Vec3 K)) (order : ℕ) (vol : Vol K) :
    (stepTranslate interp apix o tr order vol).nx = vol.nx
      ∧ (stepTranslate interp apix o tr order vol).ny = vol.ny
      ∧ (stepTranslate interp apix o tr order vol).nz = vol.nz := by
  rcases tr with _ | tv <;> exact ⟨rfl, rfl, rfl⟩

/-- The resolved pixel size only depends on the volume through `nx`. -/
theorem apixRes_congr_nx (args : Args K) {v w : Vol K} (h : v.nx = w.nx) :
    apixRes args v = apixRes args w := by
  unfold apixRes
  cases args.apix <;> simp [h]

end ShapeLemmas

section EvalHelpers

variable {K : Type} [LinearOrderedField K] [FloorRing K]

/-- Evaluation rule: a `resample_volume` call with a rotation present and a
matching grid size succeeds with the resampled data. -/
theorem resample_some_ok (interp : Interp K) (vol : Vol K) (rm : RMat K)
    (t : Option (Vec3 K)) (ori : Option (Vec3 K)) (order : ℕ) (o : Vec3 K)
    (ho : (match ori with
      | some ov => ov
      | none => fun m => ((vol.shape m / 2 : ℕ) : K)) = o)
    (h : gridLen (o 0) * gridLen (o 1) * gridLen (o 2) = vol.nx * vol.ny * vol.nz) :
    resample_volume interp vol (some rm) t ori order
      = Except.ok ⟨vol.nx, vol.ny, vol.nz,
          resampleData interp vol (some rm) t o order⟩ := by
  subst ho
  simp only [resample_volume]
  rw [if_pos h]

/-- Evaluation rule: a `resample_volume` call with a rotation present and a
mismatched grid size raises at the reshape. -/
theorem resample_some_err (interp : Interp K) (vol : Vol K) (rm : RMat K)
    (t : Option (Vec3 K)) (ori : Option (Vec3 K)) (order : ℕ) (o : Vec3 K)
    (ho : (match ori with
      | some ov => ov
      | none => fun m => ((vol.shape m / 2 : ℕ) : K)) = o)
    (h : ¬ gridLen (o 0) * gridLen (o 1) * gridLen (o 2)
          = vol.nx * vol.ny * vol.nz) :
    resample_volume interp vol (some rm) t ori order
      = Except.error Err.reshapeMismatch := by
  subst ho
  simp only [resample_volume]
  rw [if_neg h]

variable [DecidableRel ((· < ·) : K → K → Prop)]

/-- Evaluation rule: origin validation succeeds when every resolved
coordinate is strictly below its box dimension. -/
theorem resolveOrigin_some_ok (ov : Vec3 K) (apix : K) (box : Fin 3 → ℕ)
    (h : ∀ i : Fin 3, ov i / apix < (box i : K)) :
    resolveOrigin (some ov) apix box = Except.ok fun i => ov i / apix := by
  simp only [resolveOrigin]
  rw [if_pos h]

/-- Evaluation rule: origin validation fails when some resolved coordinate
reaches its box dimension. -/
theorem resolveOrigin_some_err (ov : Vec3 K) (apix : K) (box : Fin 3 → ℕ)
    (h : ¬ ∀ i : Fin 3, ov i / apix < (box i : K)) :
    resolveOrigin (some ov) apix box = Except.error Err.originOutOfBox := by
  simp only [resolveOrigin]
  rw [if_neg h]

/-- A failed origin resolution aborts the whole run with that error. -/
theorem mainCore_origin_err (interp : Interp K) (e2r : K → K → K → Mat3 K)
    (v2r : Vec3 K → Mat3 K) (std : Vol K → K) (args : Args K) (vol : Vol K)
    (e : Err)
    (he : resolveOrigin args.origin (apixRes args vol) vol.shape
        = Except.error e) :
    mainCore interp e2r v2r std args vol = Except.error e := by
  simp only [mainCore, he]

/-- With no normalization, `mainCore` is the bind-chain of the four pose
steps after origin resolution. -/
theorem mainCore_eq_bind (interp : Interp K) (e2r : K → K → K → Mat3 K)
    (v2r : Vec3 K → Mat3 K) (std : Vol K → K) (args : Args K) (vol : Vol K)
    (hN : args.normalize = false) :
    mainCore interp e2r v2r std args vol =
      (resolveOrigin args.origin (apixRes args vol) vol.shape).bind fun o =>
        (stepMatrix interp args.matrix args.order vol).bind fun d1 =>
          (stepTarget interp v2r (apixRes args vol) o args.target args.order
              d1).bind fun d2 =>
            Except.ok (stepTranslate interp (apixRes args vol) o args.translate
              args.order (stepEuler interp e2r o args.euler args.order d2)) := by
  simp only [mainCore, hN, Bool.false_eq_true, if_false, Option.getD_none]
  cases resolveOrigin args.origin (apixRes args vol) vol.shape <;> rfl

/-- With no normalization and only the matrix mechanism requested,
`mainCore` is exactly the matrix-step resampling call of map.py line 94,
which passes `t=None` and `ori=None`. -/
theorem mainCore_matrix_only (interp : Interp K) (e2r : K → K → K → Mat3 K)
    (v2r : Vec3 K → Mat3 K) (std : Vol K → K) (args : Args K) (vol : Vol K)
    (m : RMat K) (o : Vec3 K)
    (hN : args.normalize = false) (hm : args.matrix = some m)
    (ht : args.target = none) (he : args.euler = none)
    (htr : args.translate = none)
    (ho : resolveOrigin args.origin (apixRes args vol) vol.shape
        = Except.ok o) :
    mainCore interp e2r v2r std args vol
      = resample_volume interp vol (some m) none none args.order := by
  rw [mainCore_eq_bind interp e2r v2r std args vol hN, ho, hm, ht, he, htr]
  simp only [Except.bind, stepMatrix, stepTarget, stepEuler, stepTranslate]
  cases resample_volume interp vol (some m) none none args.order <;> rfl

end EvalHelpers

/-- C2: for every volume, calling `resample_volume` with rotation absent and
translation absent returns the input volume unchanged (the `vol.copy()`
early return of map.py line 146), with no resampling performed. -/
theorem c2_identity_resample {K : Type} [LinearOrderedField K] [FloorRing K]
    (interp : Interp K) (vol : Vol K) (ori : Option (Vec3 K)) (order : ℕ) :
    resample_volume interp vol none none ori order = Except.ok vol := rfl

/-- C4 (amended): whenever `resample_volume` returns a volume at all, that
volume has exactly the dimensions of the input; for origins whose sampling
grid does not have exactly as many points as the volume, the call instead
fails at the reshape and returns no volume. -/
theorem c4_shape_preservation {K : Type} [LinearOrderedField K] [FloorRing K]
    (interp : Interp K) (vol : Vol K) (r : Option (RMat K))
    (t : Option (Vec3 K)) (ori : Option (Vec3 K)) (order : ℕ) (w : Vol K)
    (h : resample_volume interp vol r t ori order = Except.ok w) :
    w.nx = vol.nx ∧ w.ny = vol.ny ∧ w.nz = vol.nz :=
  resample_ok_shape interp vol r t ori order w h

/-- C4 witness: a concrete successful resampling of the 2×2×2 volume through
the identity matrix yields a volume of the same 2×2×2 shape. -/
theorem c4_shape_preservation_witness :
    (resample_volume nearest0 cvol2 (some mat33id) none none 0).toOption.map Vol.nx
        = some cvol2.nx
      ∧ (resample_volume nearest0 cvol2 (some mat33id) none none 0).toOption.map Vol.ny
        = some cvol2.ny
      ∧ (resample_volume nearest0 cvol2 (some mat33id) none none 0).toOption.map Vol.nz
        = some cvol2.nz := by
  have hres := resample_some_ok nearest0 cvol2 mat33id none none 0
    (fun m => ((cvol2.shape m / 2 : ℕ) : ℚ)) rfl
    (by simp [cvol2, Vol.shape, gridLen])
  obtain ⟨h1, h2, h3⟩ := c4_shape_preservation nearest0 cvol2 (some mat33id)
    none none 0 _ hres
  refine ⟨?_, ?_, ?_⟩ <;> rw [hres]
  · simp [Except.toOption, h1]
  · simp [Except.toOption, h2]
  · simp [Except.toOption, h3]

/-- C4 counterexample: the origin `(1,1,1)` is valid for the 4×4×4 volume
(it lies strictly inside the box) but produces a 2×2×2 sampling grid, so
`resample_volume` raises at the reshape instead of returning a same-shaped
volume; the claim's universal quantification over valid origins fails. -/
theorem c4_cex_offcenter_origin :
    resample_volume nearest0 cvol3 (some mat33id) none (some ![1, 1, 1]) 0
      = Except.error Err.reshapeMismatch := by
  apply resample_some_err nearest0 cvol3 mat33id none (some ![1, 1, 1]) 0
    ![1, 1, 1] rfl
  simp [cvol3, gridLen] <;> norm_num

/-- C3: the Euler-angle path (`affine_transform` with transposed rotation
and origin-offset correction, map.py lines 115-118) and the
explicit-matrix/target path (`resample_volume`, lines 144-168) disagree on
the identity rigid transform: with rotation `I`, origin `(2,2,2)` and
translation equal to the origin (zero net translation), the Euler path
leaves the voxel at `(0,1,0)` unchanged while `resample_volume` places the
value of voxel `(1,0,0)` there (the `indexing="xy"` meshgrid swap of the
first two axes), so the two paths are not numerically equivalent on
equivalent `(R, t, o)` triples. -/
theorem c3_paths_diverge :
    (applyEulerRot nearest0 (id3 : Mat3 ℚ) ![2, 2, 2] 0 cvol3).data 0 1 0
        = cvol3.data 0 1 0
      ∧ (resample_volume nearest0 cvol3 (some mat33id) (some ![2, 2, 2])
            (some ![2, 2, 2]) 0).toOption.map (fun w => w.data 0 1 0)
        ≠ some (cvol3.data 0 1 0) := by
  constructor
  · simp only [applyEulerRot, affineT, nearest0, id3, cvol3]
    try simp
    try norm_num [round_eq]
  · rw [resample_some_ok nearest0 cvol3 mat33id (some ![2, 2, 2])
      (some ![2, 2, 2]) 0 ![2, 2, 2] rfl
      (by simp [cvol3, gridLen] <;> norm_num <;> simp)]
    have hL : resampleData nearest0 cvol3 (some mat33id) (some ![2, 2, 2])
        ![2, 2, 2] 0 0 1 0 = 16 := by
      simp only [resampleData, nearest0, mat33id, id3, cvol3, gridLen]
      try simp
      try norm_num [round_eq]
    have hR : cvol3.data 0 1 0 = 4 := by
      simp [cvol3]
    norm_num [Except.toOption, hL, hR]

/-- C8: in the 3×4 branch of `resample_volume`, the translation derived on
map.py line 156 from the fourth matrix column is never installed into the
homogeneous translation matrix `th` (the `elif` on line 157 is skipped), so
the embedded column has no effect: resampling through `[I | (2,1,1)]` with
no explicit translation is identical to resampling through the bare
identity, and differs from the run in which that same translation is
actually supplied (the latter shifts voxel `(0,0,0)` to source `(1,0,0)`). -/
theorem c8_embedded_translation_dead :
    resample_volume nearest0 cvol2 (some mat34c) none none 0
        = resample_volume nearest0 cvol2 (some mat33id) none none 0
      ∧ (resample_volume nearest0 cvol2 (some mat34c) none none 0).toOption.map
            (fun w => w.data 0 0 0)
        ≠ (resample_volume nearest0 cvol2 (some mat33id) (some ![2, 1, 1])
            none 0).toOption.map (fun w => w.data 0 0 0) := by
  have hgrid : gridLen ((fun m => ((cvol2.shape m / 2 : ℕ) : ℚ)) 0)
      * gridLen ((fun m => ((cvol2.shape m / 2 : ℕ) : ℚ)) 1)
      * gridLen ((fun m => ((cvol2.shape m / 2 : ℕ) : ℚ)) 2)
      = cvol2.nx * cvol2.ny * cvol2.nz := by
    simp [cvol2, Vol.shape, gridLen]
  constructor
  · rfl
  · rw [resample_some_ok nearest0 cvol2 mat34c none none 0 _ rfl hgrid,
      resample_some_ok nearest0 cvol2 mat33id (some ![2, 1, 1]) none 0 _ rfl hgrid]
    have hL : resampleData nearest0 cvol2 (some mat34c) none
        (fun m => ((cvol2.shape m / 2 : ℕ) : ℚ)) 0 0 0 0 = 0 := by
      simp only [resampleData, nearest0, mat34c, id3, cvol2, Vol.shape, gridLen]
      try simp
      try norm_num [round_eq]
    have hR : resampleData nearest0 cvol2 (some mat33id) (some ![2, 1, 1])
        (fun m => ((cvol2.shape m / 2 : ℕ) : ℚ)) 0 0 0 0 = 4 := by
      simp only [resampleData, nearest0, mat33id, id3, cvol2, Vol.shape, gridLen]
      try simp
      try norm_num [round_eq]
    norm_num [Except.toOption, hL, hR]

/-- C9 counterexample: with the user origin `(1,1,1)` (valid for the 4×4×4
box) and an explicit identity matrix, `main` resamples with `ori=None`
(map.py line 94), so the matrix step uses the default origin rather than the
resolved one: the run equals the default-origin resampling call while the
resolved-origin call would instead fail at the reshape, so the two are
different. -/
theorem c9_cex_matrix_ignores_origin :
    mainCore nearest0 e2rTriv v2rTriv std1 argsC9 cvol3
        = resample_volume nearest0 cvol3 (some mat33id) none none 0
      ∧ resample_volume nearest0 cvol3 (some mat33id) none (some ![1, 1, 1]) 0
        = Except.error Err.reshapeMismatch
      ∧ mainCore nearest0 e2rTriv v2rTriv std1 argsC9 cvol3
        ≠ resample_volume nearest0 cvol3 (some mat33id) none (some ![1, 1, 1]) 0 := by
  have hlt : ∀ i : Fin 3,
      (![1, 1, 1] : Vec3 ℚ) i / apixRes argsC9 cvol3 < ((cvol3.shape i : ℕ) : ℚ) := by
    intro i
    fin_cases i <;> norm_num [apixRes, argsC9, argsBase, cvol3, Vol.shape]
  have h1 : mainCore nearest0 e2rTriv v2rTriv std1 argsC9 cvol3
      = resample_volume nearest0 cvol3 (some mat33id) none none 0 :=
    mainCore_matrix_only nearest0 e2rTriv v2rTriv std1 argsC9 cvol3 mat33id _
      rfl rfl rfl rfl rfl
      (resolveOrigin_some_ok ![1, 1, 1] (apixRes argsC9 cvol3) cvol3.shape hlt)
  have herr : resample_volume nearest0 cvol3 (some mat33id) none
      (some ![1, 1, 1]) 0 = Except.error Err.reshapeMismatch := by
    apply resample_some_err nearest0 cvol3 mat33id none (some ![1, 1, 1]) 0
      ![1, 1, 1] rfl
    simp [cvol3, gridLen] <;> norm_num
  have hok := resample_some_ok nearest0 cvol3 mat33id none none 0
    (fun m => ((cvol3.shape m / 2 : ℕ) : ℚ)) rfl
    (by simp [cvol3, Vol.shape, gridLen] <;> norm_num <;> simp)
  refine ⟨h1, herr, ?_⟩
  rw [h1, herr, hok]
  simp

/-- C5: origin validation in `main` (map.py lines 74-83): a supplied origin
whose resolved coordinate reaches or exceeds the box dimension on some axis
aborts the run with the validation error; an origin strictly below the box
on every axis is accepted (no lower bound is checked, so negative resolved
coordinates pass) and an otherwise-empty run completes; an absent origin
defaults to `box / 2` under integer division. -/
theorem c5_origin_validation {K : Type} [LinearOrderedField K] [FloorRing K]
    [DecidableRel ((· < ·) : K → K → Prop)]
    (interp : Interp K) (e2r : K → K → K → Mat3 K) (v2r : Vec3 K → Mat3 K)
    (std : Vol K → K) (args : Args K) (vol : Vol K) (ov : Vec3 K)
    (ho : args.origin = some ov) :
    ((∃ i : Fin 3, ((vol.shape i : ℕ) : K) ≤ ov i / apixRes args vol) →
        mainCore interp e2r v2r std args vol
          = Except.error Err.originOutOfBox)
      ∧ ((∀ i : Fin 3, ov i / apixRes args vol < ((vol.shape i : ℕ) : K)) →
          args.normalize = false → args.matrix = none → args.target = none →
          args.euler = none → args.translate = none →
          mainCore interp e2r v2r std args vol = Except.ok vol)
      ∧ ∀ (apx : K) (box : Fin 3 → ℕ),
          resolveOrigin (none : Option (Vec3 K)) apx box
            = Except.ok fun i => ((box i / 2 : ℕ) : K) := by
  refine ⟨?_, ?_, fun apx box => rfl⟩
  · rintro ⟨i, hi⟩
    apply mainCore_origin_err
    rw [ho]
    exact resolveOrigin_some_err ov _ _
      (fun hall => absurd (hall i) (not_lt.mpr hi))
  · intro hlt hN hm ht he htr
    rw [mainCore_eq_bind interp e2r v2r std args vol hN, ho,
      resolveOrigin_some_ok ov _ _ hlt, hm, ht, he, htr]
    rfl

/-- C5 witness: the origin `(4,0,0)` resolves onto the box boundary of the
4×4×4 volume and is rejected; the origin `(-1,1,1)` (negative on the first
axis) resolves strictly below the box and the run succeeds; an absent origin
resolves to `(2,2,2)`. -/
theorem c5_origin_validation_witness :
    mainCore nearest0 e2rTriv v2rTriv std1 argsC5bad cvol3
        = Except.error Err.originOutOfBox
      ∧ mainCore nearest0 e2rTriv v2rTriv std1 argsC5good cvol3
        = Except.ok cvol3
      ∧ resolveOrigin (none : Option (Vec3 ℚ)) 1 cvol3.shape
        = Except.ok fun i => ((cvol3.shape i / 2 : ℕ) : ℚ) := by
  refine ⟨(c5_origin_validation nearest0 e2rTriv v2rTriv std1 argsC5bad cvol3
      ![4, 0, 0] rfl).1 ⟨0, ?_⟩,
    (c5_origin_validation nearest0 e2rTriv v2rTriv std1 argsC5good cvol3
      ![-1, 1, 1] rfl).2.1 ?_ rfl rfl rfl rfl rfl,
    (c5_origin_validation nearest0 e2rTriv v2rTriv std1 argsC5bad cvol3
      ![4, 0, 0] rfl).2.2 1 cvol3.shape⟩
  · norm_num [apixRes, argsC5bad, argsBase, cvol3, Vol.shape]
  · intro i
    fin_cases i <;> norm_num [apixRes, argsC5good, argsBase, cvol3, Vol.shape]

section BindHelpers

/-- Bind on a success reduces to the continuation. -/
theorem exceptBind_ok {ε α β : Type} (a : α) (f : α → Except ε β) :
    (Except.ok a).bind f = f a := rfl

/-- Bind on an error propagates the error. -/
theorem exceptBind_err {ε α β : Type} (e : ε) (f : α → Except ε β) :
    (Except.error e).bind f = Except.error e := rfl

/-- With normalization requested, `mainCore` still runs all pose steps (so
their failures abort the run) but the value it returns is the z-scored
input computed up front. -/
theorem mainCore_eq_bind_norm {K : Type} [LinearOrderedField K] [FloorRing K]
    [DecidableRel ((· < ·) : K → K → Prop)]
    (interp : Interp K) (e2r : K → K → K → Mat3 K) (v2r : Vec3 K → Mat3 K)
    (std : Vol K → K) (args : Args K) (vol : Vol K)
    (hN : args.normalize = true) :
    mainCore interp e2r v2r std args vol =
      (resolveOrigin args.origin (apixRes args vol) vol.shape).bind fun o =>
        (stepMatrix interp args.matrix args.order vol).bind fun d1 =>
          (stepTarget interp v2r (apixRes args vol) o args.target args.order
              d1).bind fun _d2 =>
            Except.ok ⟨vol.nx, vol.ny, vol.nz, fun i j k =>
              (vol.data i j k - volMean vol) /
                (match args.reference with
                  | some rv => std rv
                  | none => std vol)⟩ := by
  simp only [mainCore, hN, if_true, Option.getD_some]
  cases resolveOrigin args.origin (apixRes args vol) vol.shape <;> rfl

end BindHelpers

/-- C10: when normalization is requested, `final` is set on map.py line 59
to `(data - mean) / sigma` from the volume as read, before any pose step
runs, and line 129 (`if final is None: final = data`) never replaces it, so
the written volume is exactly the pre-transform z-scored input — with
`sigma` from the reference volume when one is given and from the input
otherwise — and stripping all four pose mechanisms from the same invocation
yields that same written output. -/
theorem c10_normalize_pretransform {K : Type} [LinearOrderedField K]
    [FloorRing K] [DecidableRel ((· < ·) : K → K → Prop)]
    (interp : Interp K) (e2r : K → K → K → Mat3 K) (v2r : Vec3 K → Mat3 K)
    (std : Vol K → K) (args : Args K) (vol out : Vol K)
    (hN : args.normalize = true)
    (h : mainCore interp e2r v2r std args vol = Except.ok out) :
    out = ⟨vol.nx, vol.ny, vol.nz, fun i j k =>
        (vol.data i j k - volMean vol) /
          (match args.reference with
            | some rv => std rv
            | none => std vol)⟩
      ∧ mainCore interp e2r v2r std (stripPose args) vol = Except.ok out := by
  rw [mainCore_eq_bind_norm interp e2r v2r std args vol hN] at h
  rw [mainCore_eq_bind_norm interp e2r v2r std (stripPose args) vol
    (show (stripPose args).normalize = true from hN)]
  cases hro : resolveOrigin args.origin (apixRes args vol) vol.shape with
  | error e =>
    rw [hro, exceptBind_err] at h
    exact absurd h (by simp)
  | ok o =>
    rw [hro, exceptBind_ok] at h
    rw [show resolveOrigin (stripPose args).origin
        (apixRes (stripPose args) vol) vol.shape = Except.ok o from hro,
      exceptBind_ok]
    cases hsm : stepMatrix interp args.matrix args.order vol with
    | error e =>
      rw [hsm, exceptBind_err] at h
      exact absurd h (by simp)
    | ok d1 =>
      rw [hsm, exceptBind_ok] at h
      cases hst : stepTarget interp v2r (apixRes args vol) o args.target
          args.order d1 with
      | error e =>
        rw [hst, exceptBind_err] at h
        exact absurd h (by simp)
      | ok d2 =>
        rw [hst, exceptBind_ok] at h
        injection h with h'
        refine ⟨h'.symm, ?_⟩
        rw [← h']
        rfl

/-- C10 witness: a concrete run requesting normalization together with an
identity-matrix transform writes the pre-transform z-scored 2×2×2 volume,
and the transform-free run writes the same volume. -/
theorem c10_normalize_pretransform_witness :
    nv10 = ⟨cvol2.nx, cvol2.ny, cvol2.nz, fun i j k =>
        (cvol2.data i j k - volMean cvol2) /
          (match argsC10.reference with
            | some rv => std1 rv
            | none => std1 cvol2)⟩
      ∧ mainCore nearest0 e2rTriv v2rTriv std1 (stripPose argsC10) cvol2
        = Except.ok nv10 := by
  have hres := resample_some_ok nearest0 cvol2 mat33id none none 0
    (fun m => ((cvol2.shape m / 2 : ℕ) : ℚ)) rfl
    (by simp [cvol2, Vol.shape, gridLen])
  have h : mainCore nearest0 e2rTriv v2rTriv std1 argsC10 cvol2
      = Except.ok nv10 := by
    rw [mainCore_eq_bind_norm nearest0 e2rTriv v2rTriv std1 argsC10 cvol2 rfl]
    rw [show resolveOrigin argsC10.origin (apixRes argsC10 cvol2) cvol2.shape
        = Except.ok (fun i => ((cvol2.shape i / 2 : ℕ) : ℚ)) from rfl,
      exceptBind_ok]
    rw [show stepMatrix nearest0 argsC10.matrix argsC10.order cvol2
        = resample_volume nearest0 cvol2 (some mat33id) none none 0 from rfl,
      hres, exceptBind_ok]
    rfl
  exact c10_normalize_pretransform nearest0 e2rTriv v2rTriv std1 argsC10 cvol2
    nv10 rfl h

section SingleRuns

variable {K : Type} [LinearOrderedField K] [FloorRing K]
variable [DecidableRel ((· < ·) : K → K → Prop)]
variable (interp : Interp K) (e2r : K → K → K → Mat3 K) (v2r : Vec3 K → Mat3 K)
variable (std : Vol K → K) (args : Args K) (vol : Vol K)

/-- A run requesting only the explicit matrix reduces to the matrix step
(after origin resolution, whose result the step does not consume). -/
theorem mainCore_only_matrix_run (hN : args.normalize = false) :
    mainCore interp e2r v2r std (onlyMatrix args) vol
      = (resolveOrigin args.origin (apixRes args vol) vol.shape).bind fun _o =>
          stepMatrix interp args.matrix args.order vol := by
  rw [mainCore_eq_bind interp e2r v2r std (onlyMatrix args) vol hN]
  cases hro : resolveOrigin args.origin (apixRes args vol) vol.shape with
  | error e =>
    rw [show resolveOrigin (onlyMatrix args).origin
        (apixRes (onlyMatrix args) vol) vol.shape = Except.error e from hro]
    rfl
  | ok o =>
    rw [show resolveOrigin (onlyMatrix args).origin
        (apixRes (onlyMatrix args) vol) vol.shape = Except.ok o from hro,
      exceptBind_ok, exceptBind_ok]
    cases hsm : stepMatrix interp args.matrix args.order vol with
    | error e =>
      rw [show stepMatrix interp (onlyMatrix args).matrix
          (onlyMatrix args).order vol = Except.error e from hsm]
      rfl
    | ok v1 =>
      rw [show stepMatrix interp (onlyMatrix args).matrix
          (onlyMatrix args).order vol = Except.ok v1 from hsm,
        exceptBind_ok]
      rfl

/-- A run requesting only the standard-pose target reduces to the target
step about the resolved origin. -/
theorem mainCore_only_target_run (hN : args.normalize = false) :
    mainCore interp e2r v2r std (onlyTarget args) vol
      = (resolveOrigin args.origin (apixRes args vol) vol.shape).bind fun o =>
          stepTarget interp v2r (apixRes args vol) o args.target args.order vol := by
  rw [mainCore_eq_bind interp e2r v2r std (onlyTarget args) vol hN]
  cases hro : resolveOrigin args.origin (apixRes args vol) vol.shape with
  | error e =>
    rw [show resolveOrigin (onlyTarget args).origin
        (apixRes (onlyTarget args) vol) vol.shape = Except.error e from hro]
    rfl
  | ok o =>
    rw [show resolveOrigin (onlyTarget args).origin
        (apixRes (onlyTarget args) vol) vol.shape = Except.ok o from hro,
      exceptBind_ok, exceptBind_ok,
      show stepMatrix interp (onlyTarget args).matrix (onlyTarget args).order
        vol = Except.ok vol from rfl,
      exceptBind_ok]
    cases hst : stepTarget interp v2r (apixRes args vol) o args.target
        args.order vol with
    | error e =>
      rw [show stepTarget interp v2r (apixRes (onlyTarget args) vol) o
          (onlyTarget args).target (onlyTarget args).order vol
          = Except.error e from hst]
      rfl
    | ok v2 =>
      rw [show stepTarget interp v2r (apixRes (onlyTarget args) vol) o
          (onlyTarget args).target (onlyTarget args).order vol
          = Except.ok v2 from hst, exceptBind_ok]
      rfl

/-- A run requesting only Euler angles reduces to the Euler step about the
resolved origin. -/
theorem mainCore_only_euler_run (hN : args.normalize = false) :
    mainCore interp e2r v2r std (onlyEuler args) vol
      = (resolveOrigin args.origin (apixRes args vol) vol.shape).bind fun o =>
          Except.ok (stepEuler interp e2r o args.euler args.order vol) := by
  rw [mainCore_eq_bind interp e2r v2r std (onlyEuler args) vol hN]
  cases hro : resolveOrigin args.origin (apixRes args vol) vol.shape with
  | error e =>
    rw [show resolveOrigin (onlyEuler args).origin
        (apixRes (onlyEuler args) vol) vol.shape = Except.error e from hro]
    rfl
  | ok o =>
    rw [show resolveOrigin (onlyEuler args).origin
        (apixRes (onlyEuler args) vol) vol.shape = Except.ok o from hro,
      exceptBind_ok, exceptBind_ok]
    rfl

/-- A run requesting only a translation reduces to the translation step
about the resolved origin. -/
theorem mainCore_only_translate_run (hN : args.normalize = false) :
    mainCore interp e2r v2r std (onlyTranslate args) vol
      = (resolveOrigin args.origin (apixRes args vol) vol.shape).bind fun o =>
          Except.ok (stepTranslate interp (apixRes args vol) o args.translate
            args.order vol) := by
  rw [mainCore_eq_bind interp e2r v2r std (onlyTranslate args) vol hN]
  cases hro : resolveOrigin args.origin (apixRes args vol) vol.shape with
  | error e =>
    rw [show resolveOrigin (onlyTranslate args).origin
        (apixRes (onlyTranslate args) vol) vol.shape = Except.error e from hro]
    rfl
  | ok o =>
    rw [show resolveOrigin (onlyTranslate args).origin
        (apixRes (onlyTranslate args) vol) vol.shape = Except.ok o from hro,
      exceptBind_ok, exceptBind_ok]
    rfl

end SingleRuns

/-- C9 (amended): the homogeneous transforms of the target, Euler and
translation steps are expressed relative to the resolved origin (each
single-mechanism run reduces to its step applied about the origin produced
by `resolveOrigin`), but the explicit-matrix step passes no origin at all:
with only a matrix requested and any successfully resolved origin, the run
equals the resampling call with `t=None` and `ori=None`, in which
`resample_volume` falls back to its default origin `vol.shape / 2`. -/
theorem c9_matrix_step_default_origin {K : Type} [LinearOrderedField K]
    [FloorRing K] [DecidableRel ((· < ·) : K → K → Prop)]
    (interp : Interp K) (e2r : K → K → K → Mat3 K) (v2r : Vec3 K → Mat3 K)
    (std : Vol K → K) (args : Args K) (vol : Vol K)
    (hN : args.normalize = false) :
    (∀ (m : RMat K) (o : Vec3 K), args.matrix = some m →
        args.target = none → args.euler = none → args.translate = none →
        resolveOrigin args.origin (apixRes args vol) vol.shape = Except.ok o →
        mainCore interp e2r v2r std args vol
          = resample_volume interp vol (some m) none none args.order)
      ∧ mainCore interp e2r v2r std (onlyTarget args) vol
        = ((resolveOrigin args.origin (apixRes args vol) vol.shape).bind
            fun o => stepTarget interp v2r (apixRes args vol) o args.target
              args.order vol)
      ∧ mainCore interp e2r v2r std (onlyEuler args) vol
        = ((resolveOrigin args.origin (apixRes args vol) vol.shape).bind
            fun o => Except.ok (stepEuler interp e2r o args.euler
              args.order vol))
      ∧ mainCore interp e2r v2r std (onlyTranslate args) vol
        = ((resolveOrigin args.origin (apixRes args vol) vol.shape).bind
            fun o => Except.ok (stepTranslate interp (apixRes args vol) o
              args.translate args.order vol)) :=
  ⟨fun m o hm ht he htr ho =>
      mainCore_matrix_only interp e2r v2r std args vol m o hN hm ht he htr ho,
    mainCore_only_target_run interp e2r v2r std args vol hN,
    mainCore_only_euler_run interp e2r v2r std args vol hN,
    mainCore_only_translate_run interp e2r v2r std args vol hN⟩

/-- C9 witness: a concrete run with user origin `(1,1,1)` and the identity
matrix on the 2×2×2 volume reduces to the default-origin resampling call. -/
theorem c9_matrix_step_default_origin_witness :
    mainCore nearest0 e2rTriv v2rTriv std1 argsC9w cvol2
      = resample_volume nearest0 cvol2 (some mat33id) none none 0 :=
  (c9_matrix_step_default_origin nearest0 e2rTriv v2rTriv std1 argsC9w cvol2
      rfl).1 mat33id _ rfl rfl rfl rfl
    (resolveOrigin_some_ok ![1, 1, 1] (apixRes argsC9w cvol2) cvol2.shape
      (by intro i; fin_cases i <;>
        norm_num [apixRes, argsC9w, argsBase, cvol2, Vol.shape]))

/-- C1: for every invocation (any subset of the four pose mechanisms
requested; the absent ones act as identities), the run equals the chain of
four single-mechanism runs in the fixed source order — explicit matrix,
then standard-pose target, then Euler angles, then pure translation — each
run's output volume feeding the next, and the written volume is the final
working volume of the last step. -/
theorem c1_sequential_composition {K : Type} [LinearOrderedField K]
    [FloorRing K] [DecidableRel ((· < ·) : K → K → Prop)]
    (interp : Interp K) (e2r : K → K → K → Mat3 K) (v2r : Vec3 K → Mat3 K)
    (std : Vol K → K) (args : Args K) (vol : Vol K)
    (hN : args.normalize = false) :
    mainCore interp e2r v2r std args vol =
      (mainCore interp e2r v2r std (onlyMatrix args) vol).bind fun v1 =>
        (mainCore interp e2r v2r std (onlyTarget args) v1).bind fun v2 =>
          (mainCore interp e2r v2r std (onlyEuler args) v2).bind fun v3 =>
            mainCore interp e2r v2r std (onlyTranslate args) v3 := by
  rw [mainCore_eq_bind interp e2r v2r std args vol hN,
    mainCore_only_matrix_run interp e2r v2r std args vol hN]
  cases hro : resolveOrigin args.origin (apixRes args vol) vol.shape with
  | error e => rfl
  | ok o =>
    rw [exceptBind_ok, exceptBind_ok]
    cases hsm : stepMatrix interp args.matrix args.order vol with
    | error e => rfl
    | ok v1 =>
      rw [exceptBind_ok, exceptBind_ok]
      obtain ⟨e1, e2, e3⟩ := stepMatrix_ok_shape interp args.matrix args.order
        vol v1 hsm
      have hap1 : apixRes args v1 = apixRes args vol := apixRes_congr_nx args e1
      have hsh1 : v1.shape = vol.shape := Vol.shape_congr e1 e2 e3
      rw [mainCore_only_target_run interp e2r v2r std args v1 hN, hap1, hsh1,
        hro, exceptBind_ok]
      cases hst : stepTarget interp v2r (apixRes args vol) o args.target
          args.order v1 with
      | error e => rfl
      | ok v2 =>
        rw [exceptBind_ok, exceptBind_ok]
        obtain ⟨f1, f2, f3⟩ := stepTarget_ok_shape interp v2r (apixRes args vol)
          o args.target args.order v1 v2 hst
        have hap2 : apixRes args v2 = apixRes args vol :=
          (apixRes_congr_nx args f1).trans hap1
        have hsh2 : v2.shape = vol.shape := (Vol.shape_congr f1 f2 f3).trans hsh1
        rw [mainCore_only_euler_run interp e2r v2r std args v2 hN, hap2, hsh2,
          hro, exceptBind_ok, exceptBind_ok]
        have hg := stepEuler_shape interp e2r o args.euler args.order v2
        have hap3 : apixRes args (stepEuler interp e2r o args.euler args.order v2)
            = apixRes args vol := (apixRes_congr_nx args hg.1).trans hap2
        have hsh3 : (stepEuler interp e2r o args.euler args.order v2).shape
            = vol.shape := (Vol.shape_congr hg.1 hg.2.1 hg.2.2).trans hsh2
        rw [mainCore_only_translate_run interp e2r v2r std args
          (stepEuler interp e2r o args.euler args.order v2) hN, hap3, hsh3,
          hro, exceptBind_ok]

/-- C1 witness: a concrete all-four invocation on the 2×2×2 volume equals
the chained single-mechanism runs. -/
theorem c1_sequential_composition_witness :
    mainCore nearest0 e2rTriv v2rTriv std1 argsC1 cvol2 =
      (mainCore nearest0 e2rTriv v2rTriv std1 (onlyMatrix argsC1) cvol2).bind
        fun v1 =>
        (mainCore nearest0 e2rTriv v2rTriv std1 (onlyTarget argsC1) v1).bind
          fun v2 =>
          (mainCore nearest0 e2rTriv v2rTriv std1 (onlyEuler argsC1) v2).bind
            fun v3 =>
            mainCore nearest0 e2rTriv v2rTriv std1 (onlyTranslate argsC1) v3 :=
  c1_sequential_composition nearest0 e2rTriv v2rTriv std1 argsC1 cvol2 rfl

/-- C6: the standard-pose-target step divides the physical target by the
pixel size, subtracts the resolved origin, and calls the resampler with
both the rotation obtained from the vector-to-rotation conversion and that
offset vector as translation, about the resolved origin — so a rotation and
a translation are always produced together; the modelled conversion maps
the reference view axis onto the normalized direction of `(v/p) - o`, and
the translation passed is literally `(v/p) - o`, whose magnitude is its
Euclidean norm. -/
theorem c6_target_decomposition (interp : Interp ℝ) (p : ℝ) (o v : Vec3 ℝ)
    (order : ℕ) (vol : Vol ℝ) :
    stepTarget interp vec2rot p o (some v) order vol
        = resample_volume interp vol
            (some ⟨vec2rot fun i => v i / p - o i, false, fun _ => 0⟩)
            (some fun i => v i / p - o i) (some o) order
      ∧ enorm (fun i => v i / p - o i)
        = Real.sqrt ((v 0 / p - o 0) ^ 2 + (v 1 / p - o 1) ^ 2
            + (v 2 / p - o 2) ^ 2)
      ∧ mulVec3 (vec2rot fun i => v i / p - o i) ez
        = fun i => (v i / p - o i) / enorm fun i => v i / p - o i := by
  refine ⟨rfl, rfl, ?_⟩
  funext i
  simp [mulVec3, vec2rot, ez]

section MaskLemmas

/-- Flattening an indexed family of equal-length blocks enumerates a range. -/
theorem flatMapRangeMap {α : Type} (m : ℕ) (h : ℕ → α) :
    ∀ n : ℕ, ((List.range n).flatMap fun i =>
        (List.range m).map fun j => h (i * m + j))
      = (List.range (n * m)).map h := by
  intro n
  induction n with
  | zero => simp
  | succ n ih =>
    rw [List.range_succ, List.flatMap_append, ih, Nat.succ_mul, List.range_add,
      List.map_append, List.map_map]
    congr 1
    simp [Function.comp]

/-- The voxel list of a volume whose data is a function of the row-major
linear index enumerates that function over the index range. -/
theorem volValues_linear {α : Type} (a b c : ℕ) (h : ℕ → α) :
    volValues ⟨a, b, c, fun i j k => h ((i * b + j) * c + k)⟩
      = (List.range (a * (b * c))).map h := by
  simp only [volValues]
  have hinner : ∀ i : ℕ,
      ((List.range b).flatMap fun j => (List.range c).map fun k =>
        h ((i * b + j) * c + k))
      = (List.range (b * c)).map fun x => h (i * (b * c) + x) := by
    intro i
    have hcong : (fun j => (List.range c).map fun k => h ((i * b + j) * c + k))
        = fun j => (List.range c).map fun k =>
            (fun x => h (i * (b * c) + x)) (j * c + k) := by
      funext j
      congr 1
      funext k
      congr 1
      ring
    rw [hcong, flatMapRangeMap c (fun x => h (i * (b * c) + x)) b]
  have houter : (fun i => ((List.range b).flatMap fun j =>
      (List.range c).map fun k => h ((i * b + j) * c + k)))
      = fun i => (List.range (b * c)).map fun x => h (i * (b * c) + x) :=
    funext hinner
  rw [houter, flatMapRangeMap (b * c) h a]

/-- Distinct-value counts are monotone under list inclusion. -/
theorem dedupLen_le_of_subset {α : Type} [DecidableEq α] {l1 l2 : List α}
    (h : l1 ⊆ l2) : l1.dedup.length ≤ l2.dedup.length :=
  List.Subperm.length_le (List.subperm_of_subset (List.nodup_dedup l1)
    fun x hx => List.mem_dedup.2 (h (List.mem_dedup.1 hx)))

/-- The values sampled by `ismask` are values of the volume. -/
theorem sampledValues_subset {K : Type} (v : Vol K) :
    sampledValues v ⊆ volValues v := by
  intro x hx
  simp only [sampledValues, List.mem_flatMap, List.mem_map, List.mem_filter,
    List.mem_range] at hx
  obtain ⟨i, ⟨hi, _⟩, j, hj, k, hk, hval⟩ := hx
  simp only [volValues, List.mem_flatMap, List.mem_map, List.mem_range]
  exact ⟨i, hi, j, hj, k, hk, hval⟩

end MaskLemmas

/-- C7 (amended): `ismask` counts the distinct values of the sampled
sub-array `vol[nz/2::nz]` (whole sections along the first axis) and
classifies mask-like exactly when that count is below 100.  A volume with
exactly 2 distinct values is always mask-like; a volume whose *sampled*
sub-array carries at least 100 distinct values is not mask-like (a volume
with many distinct values overall can still be mask-like when the sampled
sections carry few); and on a mask-like volume with nonzero spline order the
run only logs a warning — the computed result is untouched. -/
theorem c7_mask_heuristic :
    (∀ vol : Vol ℚ, (volValues vol).dedup.length = 2 →
        20 ≤ vol.nx → 20 ≤ vol.ny → 20 ≤ vol.nz → ismask vol = true)
      ∧ (∀ vol : Vol ℚ, 100 ≤ (sampledValues vol).dedup.length →
          ismask vol = false)
      ∧ (∀ (interp : Interp ℚ) (e2r : ℚ → ℚ → ℚ → Mat3 ℚ)
          (v2r : Vec3 ℚ → Mat3 ℚ) (std : Vol ℚ → ℚ) (args : Args ℚ)
          (vol : Vol ℚ) (o : Vec3 ℚ),
          resolveOrigin args.origin (apixRes args vol) vol.shape
              = Except.ok o →
          ismask vol = true → args.order ≠ 0 →
          Warn.maskLike ∈ (mainRun interp e2r v2r std args vol).1
            ∧ (mainRun interp e2r v2r std args vol).2
              = mainCore interp e2r v2r std args vol) := by
  refine ⟨?_, ?_, ?_⟩
  · intro vol h2 _ _ _
    have hle : (sampledValues vol).dedup.length ≤ 2 :=
      h2 ▸ dedupLen_le_of_subset (sampledValues_subset vol)
    simp only [ismask, decide_eq_true_eq]
    omega
  · intro vol h100
    simp only [ismask]
    exact decide_eq_false (by omega)
  · intro interp e2r v2r std args vol o ho hmask hord
    refine ⟨?_, rfl⟩
    simp only [mainRun, mainWarnings, ho]
    have hcond : (ismask vol && !(args.order == 0)) = true := by
      rw [hmask]
      simpa using hord
    rw [hcond]
    simp

/-- C7 counterexample: the 2×250×100 volume whose 50000 voxel values are all
distinct is nevertheless classified mask-like, because its sampled stride
`vol[50::100]` along the first axis (of extent 2) is empty, so the sampled
distinct-value count is 0 < 100; a volume with 50,000 distinct values is
therefore not always classified as non-mask-like. -/
theorem c7_cex_50000_distinct :
    (volValues cvol7).dedup.length = 50000 ∧ ismask cvol7 = true := by
  constructor
  · have h : volValues cvol7
        = (List.range (2 * (250 * 100))).map fun n => ((n : ℕ) : ℚ) :=
      volValues_linear 2 250 100 fun n => ((n : ℕ) : ℚ)
    rw [h, List.dedup_eq_self.mpr
      (List.Nodup.map Nat.cast_injective (List.nodup_range _)),
      List.length_map, List.length_range]
  · decide

/-- C7 witness: the 20×20×20 two-valued volume is mask-like; the 1×100×1
volume whose sampled stride carries 100 distinct values is not; and a run
with spline order 3 on the mask-like volume emits the mask advisory. -/
theorem c7_mask_heuristic_witness :
    ismask cvolMask2 = true ∧ ismask cvolStride = false
      ∧ Warn.maskLike ∈ (mainRun nearest0 e2rTriv v2rTriv std1 argsC7
          cvolMask2).1 := by
  have h2 : (volValues cvolMask2).dedup.length = 2 := by
    have ht : (volValues cvolMask2).toFinset = {0, 1} := by
      ext x
      simp only [List.mem_toFinset, volValues, List.mem_flatMap, List.mem_map,
        List.mem_range, Finset.mem_insert, Finset.mem_singleton, cvolMask2]
      constructor
      · rintro ⟨i, hi, j, hj, k, hk, rfl⟩
        by_cases hij : i = 0 <;> simp [hij]
      · rintro (rfl | rfl)
        · exact ⟨0, by norm_num, 0, by norm_num, 0, by norm_num, by simp⟩
        · exact ⟨1, by norm_num, 0, by norm_num, 0, by norm_num, by simp⟩
    rw [← List.card_toFinset, ht, Finset.card_pair (by norm_num)]
  have hm : ismask cvolMask2 = true :=
    c7_mask_heuristic.1 cvolMask2 h2 (by decide) (by decide) (by decide)
  refine ⟨hm, ?_, ?_⟩
  · apply c7_mask_heuristic.2.1
    have hs : sampledValues cvolStride
        = (List.range 100).map fun n => ((n : ℕ) : ℚ) := rfl
    rw [hs, List.dedup_eq_self.mpr
      (List.Nodup.map Nat.cast_injective (List.nodup_range _)),
      List.length_map, List.length_range]
  · exact (c7_mask_heuristic.2.2 nearest0 e2rTriv v2rTriv std1 argsC7
      cvolMask2 _ rfl hm (by decide)).1
